import Mathlib

/-!
# Verification of the catbench-leaderboard data/Pareto utilities

Shallow embedding of the pure helper functions of the repository:

* `src/utils/colorSchemes.js`: `getParetoFrontier`, `getParetoLineData`,
  `getParetoAreaData` (the Pareto dominance engine, frontier step-curve
  builder, and dominance-region builder);
* `src/utils/dataTransform.js`: `transformDataForDataset`,
  `transformDataForAverage`, `getAdsorbateBreakdown`,
  `getDatasetMlipAdsorbateBreakdown` (record normalizers and tabular row
  projectors).

JavaScript numbers are modelled as rationals (`ℚ`), `null`/`undefined`
as `Option.none`, and JS objects as association lists with JS-object
write semantics (overwrite in place, otherwise append, insertion order
preserved).
-/

namespace CatBench

/-- A chart point: the `{x, y}` pair the Pareto engine operates on
(`colorSchemes.js`, `getParetoFrontier`'s mapped points). -/
structure Point where
  x : ℚ
  y : ℚ
deriving DecidableEq, Repr

/-- An input record as seen by `getParetoFrontier`: the two projected
coordinates `d[xKey]` and `d[yKey]`, each possibly `null`/`undefined`
(modelled as `none`). Other fields of the record are irrelevant to the
functions under study. -/
structure Rec where
  xv : Option ℚ
  yv : Option ℚ
deriving DecidableEq, Repr

/-- Comparator order used by the JS `sort((a, b) => a.x - b.x)` calls:
`a` may come before `b` iff `a.x ≤ b.x`. -/
def ptLE (a b : Point) : Prop := a.x ≤ b.x

instance : DecidableRel ptLE := fun a b => inferInstanceAs (Decidable (a.x ≤ b.x))

instance : IsTotal Point ptLE := ⟨fun a b => le_total a.x b.x⟩

instance : IsTrans Point ptLE := ⟨fun _ _ _ hab hbc => le_trans hab hbc⟩

/-- Model of `array.sort((a, b) => a.x - b.x)`: a stable sort by the `x`
coordinate. (`Array.prototype.sort` is stable, and `insertionSort` is a
stable sort, so it is a faithful model of the observable behaviour.) -/
def sortByX (l : List Point) : List Point := l.insertionSort ptLE

/-- The dominance test of `getParetoFrontier`'s inner loop
(`colorSchemes.js` lines 261-275): does `q` (the point at index `j`)
dominate `p` (the point at index `i`) for the given `minimize` pair?
When `minimize[0]` is `false` neither `if` branch of the source applies,
so nothing ever dominates. -/
def dominates (minimize : Bool × Bool) (q p : Point) : Bool :=
  match minimize with
  | (true, true) =>
      decide (q.x ≤ p.x) && decide (q.y ≤ p.y) &&
        (decide (q.x < p.x) || decide (q.y < p.y))
  | (true, false) =>
      decide (q.x ≤ p.x) && decide (q.y ≥ p.y) &&
        (decide (q.x < p.x) || decide (q.y > p.y))
  | (false, _) => false

/-- The filter-and-map prologue of `getParetoFrontier`
(`colorSchemes.js` lines 251-253): keep the records whose two projected
coordinates are both non-null, as points. -/
def qualifyingPoints (data : List Rec) : List Point :=
  data.filterMap fun d =>
    match d.xv, d.yv with
    | some x, some y => some ⟨x, y⟩
    | _, _ => none

/-- `getParetoFrontier` (`colorSchemes.js` lines 249-287). The source
keeps the point at index `i` iff no index `j ≠ i` dominates it; since
`dominates m q q = false` for every `m` and `q` (the strict clause fails
on itself, see `dominates_self`), the `i ≠ j` guard is redundant and the
source's indexed loop is the per-value test used here. The survivors
are then sorted ascending by `x`. -/
def getParetoFrontier (data : List Rec) (minimize : Bool × Bool) : List Point :=
  let points := qualifyingPoints data
  let pareto := points.filter fun p => !(points.any fun q => dominates minimize q p)
  sortByX pareto

/-- The step-pattern loop of `getParetoLineData` (`colorSchemes.js`
lines 299-306): for each consecutive pair of the sorted frontier the
source pushes four vertices — `(p.x, p.y)`, `(q.x, p.y)`, then
`(q.x, p.y)` again, then `(q.x, q.y)`. -/
def stepSegments : List Point → List Point
  | p :: q :: rest =>
      ⟨p.x, p.y⟩ :: ⟨q.x, p.y⟩ :: ⟨q.x, p.y⟩ :: ⟨q.x, q.y⟩ :: stepSegments (q :: rest)
  | _ => []

/-- `getParetoLineData` (`colorSchemes.js` lines 290-311): fewer than
two frontier points give `[]`; otherwise re-sort by `x`, seed with the
first point, then run the step loop over consecutive pairs. -/
def getParetoLineData (paretoData : List Point) : List Point :=
  if paretoData.length < 2 then []
  else
    match sortByX paretoData with
    | [] => []
    | p0 :: rest => ⟨p0.x, p0.y⟩ :: stepSegments (p0 :: rest)

/-- `Math.min(...)` over a list of values, as used for `minX` in
`getParetoAreaData`. The empty case never occurs in the claims (the
source would produce `Infinity` there); `0` is a junk value. -/
def listMin : List ℚ → ℚ
  | [] => 0
  | x :: xs => xs.foldl min x

/-- `getParetoAreaData` (`colorSchemes.js` lines 314-356): for a
non-empty frontier, emit `(minX, sorted[0].y)`, every sorted frontier
point, `(maxX·1.15, sortedLast.y)`, then close the polygon at
`y = maxY·1.1` (isMinimizeY) or `y = 0` (otherwise), ending back at
`minX`. `minX` is `Math.min` over `allData`'s x values. The `headD` /
`getLastD` defaults are unreachable for a non-empty frontier. -/
def getParetoAreaData (paretoData allData : List Point) (maxX maxY : ℚ)
    (isMinimizeY : Bool) : List Point :=
  if paretoData.length < 1 then []
  else
    let sorted := sortByX paretoData
    let minX := listMin (allData.map Point.x)
    let maxXExtended := maxX * (115 / 100)
    if isMinimizeY then
      let topY := maxY * (11 / 10)
      ⟨minX, (sorted.headD ⟨0, 0⟩).y⟩ ::
        (sorted ++ [⟨maxXExtended, (sorted.getLastD ⟨0, 0⟩).y⟩,
          ⟨maxXExtended, topY⟩, ⟨minX, topY⟩])
    else
      let bottomY : ℚ := 0
      ⟨minX, (sorted.headD ⟨0, 0⟩).y⟩ ::
        (sorted ++ [⟨maxXExtended, (sorted.getLastD ⟨0, 0⟩).y⟩,
          ⟨maxXExtended, bottomY⟩, ⟨minX, bottomY⟩])

/-- No point dominates itself: the strict clause of every branch of the
dominance rule fails on `q = p`. -/
theorem dominates_self (m : Bool × Bool) (p : Point) : dominates m p p = false := by
  obtain ⟨b1, b2⟩ := m
  cases b1 <;> cases b2 <;> simp [dominates]

example :
    getParetoFrontier
      [⟨some 1, some 5⟩, ⟨some 2, some 3⟩, ⟨some 3, some 4⟩] (true, true) =
      [⟨1, 5⟩, ⟨2, 3⟩] := by decide

/-! ## dataTransform.js -/

/-- One entry of `average_metrics[key]`: an object whose `mean` field may
be absent. -/
structure AvgEntry where
  mean : Option ℚ
deriving DecidableEq, Repr

/-- One MLIP entry of `jsonData.mlips`: `datasets` maps a dataset name to
a metrics object (metric key → number), `average_metrics` maps a metric
key to an `AvgEntry`. Either map may be absent. JS objects are modelled
as association lists. -/
structure MlipEntry where
  datasets : Option (List (String × List (String × ℚ)))
  average_metrics : Option (List (String × AvgEntry))
deriving DecidableEq, Repr

/-- A tabular sheet as found under `adsorbate_breakdown[mlip]` and
`excel_data[dataset][mlip]`: a `columns` array and a `data` array of
rows, either of which may be absent. Cell values are modelled as
integers. -/
structure MlipTable where
  columns : Option (List String)
  data : Option (List (List ℤ))
deriving DecidableEq, Repr

/-- The `leaderboard_data.json` document, restricted to the fields the
functions under study read. A `null`/missing document itself is
modelled as `Option Doc`. -/
structure Doc where
  mlips : Option (List (String × MlipEntry))
  excel_data : Option (List (String × List (String × MlipTable)))
  adsorbate_breakdown : Option (List (String × MlipTable))
deriving DecidableEq, Repr

/-- The normalized model record built by `transformDataForDataset` /
`transformDataForAverage` (`dataTransform.js` lines 28-40 and 65-77):
each metric field is a number or `null`. -/
structure ModelRecord where
  model : String
  maeTotal : Option ℚ
  maeNormal : Option ℚ
  normalRate : Option ℚ
  adsorbateMigration : Option ℚ
  reproductionFailure : Option ℚ
  unphysicalRelaxation : Option ℚ
  energyAnomaly : Option ℚ
  adwt : Option ℚ
  amdwt : Option ℚ
  timePerStep : Option ℚ
deriving DecidableEq, Repr

/-- `transformDataForDataset` (`dataTransform.js` lines 12-46): for each
MLIP whose `datasets?.[datasetName]` exists, build a record mapping the
five populated fields from their exact JSON keys with `?? null`
coalescing, and hard-code the perpetually-absent fields to `null`. -/
def transformDataForDataset (jsonData : Option Doc) (datasetName : String) :
    List ModelRecord :=
  match jsonData with
  | none => []
  | some d =>
    match d.mlips with
    | none => []
    | some mlips =>
      mlips.filterMap fun entry =>
        match entry.2.datasets.bind (List.lookup datasetName) with
        | none => none
        | some metrics =>
          some
            { model := entry.1
              maeTotal := List.lookup "MAE_total (eV)" metrics
              maeNormal := List.lookup "MAE_normal (eV)" metrics
              normalRate := List.lookup "Normal rate (%)" metrics
              adsorbateMigration := none
              reproductionFailure := none
              unphysicalRelaxation := none
              energyAnomaly := none
              adwt := List.lookup "ADwT (%)" metrics
              amdwt := none
              timePerStep := List.lookup "Time_per_step (s)" metrics }

/-- `transformDataForAverage` (`dataTransform.js` lines 53-83): one
record per MLIP, reading `average_metrics[key]?.mean ?? null` for the
populated fields (`average_metrics || {}` defaults to the empty map)
and hard-coding the perpetually-absent fields to `null`. -/
def transformDataForAverage (jsonData : Option Doc) : List ModelRecord :=
  match jsonData with
  | none => []
  | some d =>
    match d.mlips with
    | none => []
    | some mlips =>
      mlips.map fun entry =>
        let am := entry.2.average_metrics.getD []
        { model := entry.1
          maeTotal := (List.lookup "MAE_total (eV)" am).bind AvgEntry.mean
          maeNormal := (List.lookup "MAE_normal (eV)" am).bind AvgEntry.mean
          normalRate := (List.lookup "Normal rate (%)" am).bind AvgEntry.mean
          adsorbateMigration := none
          reproductionFailure := none
          unphysicalRelaxation := none
          energyAnomaly := none
          adwt := (List.lookup "ADwT (%)" am).bind AvgEntry.mean
          amdwt := none
          timePerStep := (List.lookup "Time_per_step (s)" am).bind AvgEntry.mean }

/-- A projected row object: a JS object from column names to cell
values; a cell read past the row's end (`row[idx]` undefined) is
`none`. -/
abbrev RowObj := List (String × Option ℤ)

/-- JS object write `obj[k] = v`: overwrite the (unique) existing entry
for `k` in place if the key exists, otherwise append. JS objects
preserve insertion order, and a key occurs at most once, so replacing
the first occurrence models the write exactly. -/
def objSet : RowObj → String → Option ℤ → RowObj
  | [], k, v => [(k, v)]
  | kv :: rest, k, v =>
      if kv.1 = k then (k, v) :: rest else kv :: objSet rest k v

/-- JS object read `obj[k]`: `some` the stored value when the key is
present, `none` when the key is absent (so `some none` is a key
explicitly holding `undefined`). -/
def objGet : RowObj → String → Option (Option ℤ)
  | [], _ => none
  | kv :: rest, k => if kv.1 = k then some kv.2 else objGet rest k

/-- Split a character list at the first occurrence of the (non-empty)
separator `sep`: `some (before, after)` when `sep` occurs, `none`
otherwise. This is the left-to-right scan JS `String.prototype.split`
performs to produce its first segment. -/
def splitFirst (sep : List Char) : List Char → Option (List Char × List Char)
  | [] => none
  | c :: rest =>
      if sep.isPrefixOf (c :: rest) then some ([], (c :: rest).drop sep.length)
      else
        match splitFirst sep rest with
        | some (pre, post) => some (c :: pre, post)
        | none => none

/-- The duplicate-column collapse of `getDatasetMlipAdsorbateBreakdown`
(`dataTransform.js` lines 177-179): if `col` contains `" - "`
(`col.includes(' - ')`, i.e. `splitFirst` succeeds) and the first two
`split(' - ')` parts coincide (`col.split(' - ')[0] === col.split(' - ')[1]`;
the second part is the segment between the first occurrence of the
separator and the next one, or the remainder when there is no next
occurrence), the clean name is the first part; otherwise the column name
is kept. -/
def cleanCol (col : String) : String :=
  let sep := " - ".toList
  match splitFirst sep col.toList with
  | none => col
  | some (p0, rest0) =>
      let p1 :=
        match splitFirst sep rest0 with
        | none => rest0
        | some (p1, _) => p1
      if p0 = p1 then String.mk p0 else col

/-- The `columns.forEach((col, idx) => { rowObj[col] = row[idx] })` loop
of `getAdsorbateBreakdown` (`dataTransform.js` lines 142-148), with the
running index made explicit. -/
def projectRowPlainAux (row : List ℤ) : Nat → List String → RowObj → RowObj
  | _, [], obj => obj
  | i, c :: cs, obj => projectRowPlainAux row (i + 1) cs (objSet obj c row[i]?)

/-- Row projection of `getAdsorbateBreakdown`: store each cell under its
original column name only. -/
def projectRowPlain (columns : List String) (row : List ℤ) : RowObj :=
  projectRowPlainAux row 0 columns []

/-- The `columns.forEach` loop of `getDatasetMlipAdsorbateBreakdown`
(`dataTransform.js` lines 175-185): write the cell under the clean
(collapsed) name, and additionally under the original name when the two
differ. -/
def projectRowCleanAux (row : List ℤ) : Nat → List String → RowObj → RowObj
  | _, [], obj => obj
  | i, c :: cs, obj =>
      let v := row[i]?
      let clean := cleanCol c
      let obj1 := objSet obj clean v
      projectRowCleanAux row (i + 1) cs (if clean ≠ c then objSet obj1 c v else obj1)

/-- Row projection of `getDatasetMlipAdsorbateBreakdown`: collapse
duplicate column names, keeping the original key as well. -/
def projectRowClean (columns : List String) (row : List ℤ) : RowObj :=
  projectRowCleanAux row 0 columns []

/-- `getAdsorbateBreakdown` (`dataTransform.js` lines 132-149): `null`
when the document, the `adsorbate_breakdown` block or the MLIP's table
is absent; otherwise project every data row (columns and data default to
`[]` when absent). No column-name collapsing happens here. -/
def getAdsorbateBreakdown (jsonData : Option Doc) (mlipName : String) :
    Option (List RowObj) :=
  match jsonData with
  | none => none
  | some d =>
    match d.adsorbate_breakdown with
    | none => none
    | some ab =>
      match List.lookup mlipName ab with
      | none => none
      | some t =>
        some ((t.data.getD []).map (projectRowPlain (t.columns.getD [])))

/-- `getDatasetMlipAdsorbateBreakdown` (`dataTransform.js` lines
158-188): `null` when the document, `excel_data`, the dataset's sheet
map or the MLIP's table is absent; otherwise project every data row with
duplicate-column collapsing (columns and data default to `[]` when
absent). -/
def getDatasetMlipAdsorbateBreakdown (jsonData : Option Doc)
    (datasetName mlipName : String) : Option (List RowObj) :=
  match jsonData with
  | none => none
  | some d =>
    match d.excel_data with
    | none => none
    | some ed =>
      match List.lookup datasetName ed with
      | none => none
      | some sheets =>
        match List.lookup mlipName sheets with
        | none => none
        | some t =>
          some ((t.data.getD []).map (projectRowClean (t.columns.getD [])))

example :
    getDatasetMlipAdsorbateBreakdown
      (some ⟨none, some [("D", [("M", ⟨some ["E", "E - E", "F"], some [[1, 1, 2]]⟩)])], none⟩)
      "D" "M" =
      some [[("E", some 1), ("E - E", some 1), ("F", some 2)]] := by decide

/-! ## Helper lemmas: Pareto frontier -/

/-- Membership in the frontier: exactly the qualifying points dominated
by no qualifying point. -/
theorem mem_getParetoFrontier {data : List Rec} {m : Bool × Bool} {p : Point} :
    p ∈ getParetoFrontier data m ↔
      p ∈ qualifyingPoints data ∧
        ∀ q ∈ qualifyingPoints data, dominates m q p = false := by
  unfold getParetoFrontier sortByX
  simp [List.mem_filter]

/-- The frontier is sorted (weakly) ascending in `x`. -/
theorem getParetoFrontier_sorted (data : List Rec) (m : Bool × Bool) :
    (getParetoFrontier data m).Pairwise fun a b => a.x ≤ b.x :=
  List.sorted_insertionSort ptLE _

/-- C1: for the direction pairs (Minimize,Minimize) and
(Minimize,Maximize), `getParetoFrontier` returns exactly those points
with both coordinates non-null that no other qualifying point dominates,
sorted ascending by `x`; in particular, for (1,5), (2,3), (3,4) under
(Minimize,Minimize) the result is [(1,5),(2,3)]. -/
theorem C1_getParetoFrontier_correct :
    (∀ (data : List Rec) (m : Bool × Bool), m = (true, true) ∨ m = (true, false) →
      (∀ p : Point,
          p ∈ getParetoFrontier data m ↔
            p ∈ qualifyingPoints data ∧
              ∀ q ∈ qualifyingPoints data, q ≠ p → dominates m q p = false) ∧
      (getParetoFrontier data m).Pairwise fun a b => a.x ≤ b.x) ∧
    getParetoFrontier [⟨some 1, some 5⟩, ⟨some 2, some 3⟩, ⟨some 3, some 4⟩]
        (true, true) = [⟨1, 5⟩, ⟨2, 3⟩] := by
  refine ⟨fun data m _ => ⟨fun p => ?_, getParetoFrontier_sorted data m⟩, by decide⟩
  rw [mem_getParetoFrontier]
  constructor
  · rintro ⟨hp, hall⟩
    exact ⟨hp, fun q hq _ => hall q hq⟩
  · rintro ⟨hp, hall⟩
    refine ⟨hp, fun q hq => ?_⟩
    by_cases hqp : q = p
    · subst hqp; exact dominates_self m q
    · exact hall q hq hqp

/-- C1 witness: the general statement applied to a concrete input. -/
theorem C1_getParetoFrontier_correct_witness :
    (getParetoFrontier [⟨some 1, some 5⟩, ⟨some 2, some 3⟩] (true, true)).Pairwise
      fun a b => a.x ≤ b.x :=
  (C1_getParetoFrontier_correct.1 _ _ (Or.inl rfl)).2

/-- C10: when the first direction is Maximize (`minimize[0] = false`),
neither branch of the dominance test applies, so `getParetoFrontier`
eliminates nothing: it returns all qualifying points sorted by `x`. -/
theorem C10_maximize_first_no_elimination (data : List Rec) (b : Bool) :
    getParetoFrontier data (false, b) = sortByX (qualifyingPoints data) := by
  have hdom : ∀ q p : Point, dominates (false, b) q p = false := by
    intro q p; cases b <;> rfl
  have hany : ∀ l : List Point, (l.any fun _ => false) = false := fun l => by simp
  unfold getParetoFrontier
  simp [hdom, hany]

/-- C5 counterexample: two coincident records (1,5), (1,5) under
(Minimize,Minimize) both survive, so the frontier's `x` coordinates are
not strictly increasing — two frontier points share `x = 1`. -/
theorem C5_strictly_increasing_cex :
    ¬ ((getParetoFrontier [⟨some 1, some 5⟩, ⟨some 1, some 5⟩] (true, true)).Pairwise
        fun a b : Point => a.x < b.x) := by decide

/-- C5 (amended): for the supported direction pairs the frontier's `x`
coordinates are weakly increasing, and two frontier points can share an
`x` only when they also share the `y` (i.e. only coincident points). -/
theorem C5_frontier_weakly_increasing :
    ∀ (data : List Rec) (m : Bool × Bool), m = (true, true) ∨ m = (true, false) →
      ((getParetoFrontier data m).Pairwise fun a b => a.x ≤ b.x) ∧
      ∀ p ∈ getParetoFrontier data m, ∀ q ∈ getParetoFrontier data m,
        p.x = q.x → p.y = q.y := by
  intro data m hm
  refine ⟨getParetoFrontier_sorted data m, fun p hp q hq hxy => ?_⟩
  rw [mem_getParetoFrontier] at hp hq
  rcases lt_trichotomy p.y q.y with hlt | heq | hgt
  · exfalso
    rcases hm with rfl | rfl
    · have hdom : dominates (true, true) p q = true := by
        simp [dominates]
        exact ⟨⟨le_of_eq hxy, le_of_lt hlt⟩, Or.inr hlt⟩
      simp [hq.2 p hp.1] at hdom
    · have hdom : dominates (true, false) q p = true := by
        simp [dominates]
        exact ⟨⟨le_of_eq hxy.symm, le_of_lt hlt⟩, Or.inr hlt⟩
      simp [hp.2 q hq.1] at hdom
  · exact heq
  · exfalso
    rcases hm with rfl | rfl
    · have hdom : dominates (true, true) q p = true := by
        simp [dominates]
        exact ⟨⟨le_of_eq hxy.symm, le_of_lt hgt⟩, Or.inr hgt⟩
      simp [hp.2 q hq.1] at hdom
    · have hdom : dominates (true, false) p q = true := by
        simp [dominates]
        exact ⟨⟨le_of_eq hxy, le_of_lt hgt⟩, Or.inr hgt⟩
      simp [hq.2 p hp.1] at hdom

/-- C5 witness: the amended statement applied to a concrete input. -/
theorem C5_frontier_weakly_increasing_witness :
    ((⟨1, 5⟩ : Point)).y = ((⟨1, 5⟩ : Point)).y :=
  (C5_frontier_weakly_increasing [⟨some 1, some 5⟩] (true, true) (Or.inl rfl)).2
    ⟨1, 5⟩ (by decide) ⟨1, 5⟩ (by decide) rfl

/-! ## Helper lemmas: step curve -/

/-- The step loop emits four vertices per consecutive pair. -/
theorem stepSegments_length : ∀ l : List Point,
    (stepSegments l).length = 4 * (l.length - 1)
  | [] => rfl
  | [_] => rfl
  | p :: q :: rest => by
    have ih := stepSegments_length (q :: rest)
    simp only [stepSegments, List.length_cons] at ih ⊢
    omega

/-- The quadruple of vertices the step loop emits for a consecutive pair
`(p, q)`: `(p.x, p.y)`, `(q.x, p.y)`, `(q.x, p.y)` again, `(q.x, q.y)`. -/
def stepQuad (pq : Point × Point) : List Point :=
  [⟨pq.1.x, pq.1.y⟩, ⟨pq.2.x, pq.1.y⟩, ⟨pq.2.x, pq.1.y⟩, ⟨pq.2.x, pq.2.y⟩]

/-- The step loop is the concatenation of the quadruples over the list
of consecutive pairs. -/
theorem stepSegments_eq_flatMap : ∀ l : List Point,
    stepSegments l = (l.zip l.tail).flatMap stepQuad
  | [] => rfl
  | [_] => rfl
  | p :: q :: rest => by
    have ih := stepSegments_eq_flatMap (q :: rest)
    simp only [stepSegments, List.tail_cons, List.zip_cons_cons, List.flatMap_cons] at ih ⊢
    rw [ih]
    rfl

/-- C2: the step-curve builder returns `4·(n-1)+1` vertices for an
n-point frontier with n ≥ 2, and the empty sequence for n < 2. -/
theorem C2_getParetoLineData_length :
    ∀ paretoData : List Point,
      (2 ≤ paretoData.length →
        (getParetoLineData paretoData).length = 4 * (paretoData.length - 1) + 1) ∧
      (paretoData.length < 2 → getParetoLineData paretoData = []) := by
  intro l
  constructor
  · intro h2
    have hlen : (sortByX l).length = l.length := List.length_insertionSort _ _
    unfold getParetoLineData
    rw [if_neg (by omega)]
    rcases hs : sortByX l with _ | ⟨p0, rest⟩
    · rw [hs] at hlen
      simp at hlen
      omega
    · rw [hs] at hlen
      simp only [List.length_cons, stepSegments_length]
      simp only [List.length_cons] at hlen
      omega
  · intro h
    unfold getParetoLineData
    rw [if_pos h]

/-- C2 witness: the length formula at a concrete two-point frontier. -/
theorem C2_getParetoLineData_length_witness :
    (getParetoLineData [⟨0, 0⟩, ⟨1, 1⟩]).length =
      4 * (([⟨(0 : ℚ), (0 : ℚ)⟩, ⟨1, 1⟩] : List Point).length - 1) + 1 :=
  (C2_getParetoLineData_length _).1 (by decide)

/-- C3 counterexample: on the two-point frontier (0,0), (1,1) the step
curve has 5 vertices, not the claimed `3·(n-1)+1 = 4`. -/
theorem C3_three_vertices_cex :
    (getParetoLineData [⟨0, 0⟩, ⟨1, 1⟩]).length ≠ 3 * (2 - 1) + 1 := by decide

/-- C3 (amended): for an n-point frontier (n ≥ 2) the builder emits the
first sorted point and then, for each consecutive pair `(p, q)`, exactly
four more vertices in order — `(p.x, p.y)`, `(q.x, p.y)`, `(q.x, p.y)`
repeated, `(q.x, q.y)` — yielding a `4·(n-1)+1`-vertex staircase. -/
theorem C3_step_pattern (paretoData : List Point) (p0 : Point) (rest : List Point)
    (h2 : 2 ≤ paretoData.length) (hs : sortByX paretoData = p0 :: rest) :
    getParetoLineData paretoData =
      ⟨p0.x, p0.y⟩ :: ((p0 :: rest).zip rest).flatMap stepQuad := by
  unfold getParetoLineData
  rw [if_neg (by omega), hs]
  dsimp only
  rw [stepSegments_eq_flatMap (p0 :: rest)]
  rfl

/-- C3 witness: the amended step pattern at a concrete two-point
frontier. -/
theorem C3_step_pattern_witness :
    getParetoLineData [⟨0, 0⟩, ⟨1, 1⟩] =
      ⟨(0 : ℚ), (0 : ℚ)⟩ ::
        (([⟨0, 0⟩, ⟨1, 1⟩] : List Point).zip [⟨1, 1⟩]).flatMap stepQuad :=
  C3_step_pattern [⟨0, 0⟩, ⟨1, 1⟩] ⟨0, 0⟩ [⟨1, 1⟩] (by decide) (by decide)

/-! ## Helper lemmas: area data -/

/-- `sortByX` preserves length. -/
theorem length_sortByX (l : List Point) : (sortByX l).length = l.length :=
  List.length_insertionSort _ _

theorem foldl_min_le_init (xs : List ℚ) (a : ℚ) : xs.foldl min a ≤ a := by
  induction xs generalizing a with
  | nil => exact le_refl a
  | cons x xs ih => exact le_trans (ih (min a x)) (min_le_left a x)

theorem foldl_min_le_mem (xs : List ℚ) : ∀ (a x : ℚ), x ∈ xs → xs.foldl min a ≤ x := by
  induction xs with
  | nil => intro a x hx; cases hx
  | cons y ys ih =>
    intro a x hx
    rcases List.mem_cons.mp hx with rfl | hmem
    · exact le_trans (foldl_min_le_init ys (min a x)) (min_le_right a x)
    · exact ih (min a y) x hmem

theorem foldl_min_choice (xs : List ℚ) : ∀ a : ℚ, xs.foldl min a = a ∨ xs.foldl min a ∈ xs := by
  induction xs with
  | nil => intro a; exact Or.inl rfl
  | cons y ys ih =>
    intro a
    rcases ih (min a y) with h | h
    · rcases min_choice a y with hc | hc
      · left; rw [List.foldl_cons, h, hc]
      · right
        rw [List.foldl_cons, h, hc]
        exact List.mem_cons_self y ys
    · right
      rw [List.foldl_cons]
      exact List.mem_cons_of_mem y h

/-- `Math.min` over a non-empty list bounds every element below. -/
theorem listMin_le {l : List ℚ} {x : ℚ} (hx : x ∈ l) : listMin l ≤ x := by
  cases l with
  | nil => cases hx
  | cons y ys =>
    rcases List.mem_cons.mp hx with rfl | hmem
    · exact foldl_min_le_init ys x
    · exact foldl_min_le_mem ys y x hmem

/-- `Math.min` over a non-empty list is one of its elements. -/
theorem listMin_mem {l : List ℚ} (hl : l ≠ []) : listMin l ∈ l := by
  cases l with
  | nil => exact absurd rfl hl
  | cons y ys =>
    rcases foldl_min_choice ys y with h | h
    · show ys.foldl min y ∈ y :: ys
      rw [h]
      exact List.mem_cons_self y ys
    · exact List.mem_cons_of_mem y h

/-- C4: for a non-empty frontier, `getParetoAreaData` returns
`(minX, firstSorted.y)`, the sorted frontier points, then
`(maxX·1.15, lastSorted.y)`, then two closing vertices at
`y = maxY·1.1` (minimizeY) or `y = 0` (otherwise), the last back at
`x = minX`; and `minX` is the minimum `x` over `allData` (all qualifying
points), not just the frontier. -/
theorem C4_getParetoAreaData_shape (pareto allData : List Point) (maxX maxY : ℚ)
    (minY : Bool) (p0 pl : Point)
    (hhead : (sortByX pareto).head? = some p0)
    (hlast : (sortByX pareto).getLast? = some pl)
    (hall : allData ≠ []) :
    getParetoAreaData pareto allData maxX maxY minY =
      ⟨listMin (allData.map Point.x), p0.y⟩ ::
        (sortByX pareto ++
          [⟨maxX * (115 / 100), pl.y⟩,
           ⟨maxX * (115 / 100), if minY then maxY * (11 / 10) else 0⟩,
           ⟨listMin (allData.map Point.x), if minY then maxY * (11 / 10) else 0⟩]) ∧
    (∀ d ∈ allData, listMin (allData.map Point.x) ≤ d.x) ∧
    (∃ d ∈ allData, d.x = listMin (allData.map Point.x)) ∧
    ((sortByX pareto).Pairwise fun a b => a.x ≤ b.x) := by
  have hne : 1 ≤ pareto.length := by
    rw [← length_sortByX]
    rcases hsp : sortByX pareto with _ | ⟨q, qs⟩
    · rw [hsp] at hhead; cases hhead
    · simp
  refine ⟨?_, fun d hd => listMin_le (List.mem_map_of_mem Point.x hd), ?_,
    List.sorted_insertionSort ptLE pareto⟩
  · unfold getParetoAreaData
    rw [if_neg (by omega)]
    cases minY <;>
      simp [List.headD_eq_head?_getD, List.getLastD_eq_getLast?, hhead, hlast]
  · have hmem := listMin_mem (l := allData.map Point.x) (by simpa using hall)
    rcases List.mem_map.mp hmem with ⟨d, hd, hdx⟩
    exact ⟨d, hd, hdx⟩

/-- C4 witness: the shape statement applied to a concrete input. -/
theorem C4_getParetoAreaData_shape_witness :
    (sortByX [⟨1, 5⟩, ⟨2, 3⟩]).Pairwise fun a b : Point => a.x ≤ b.x :=
  (C4_getParetoAreaData_shape [⟨1, 5⟩, ⟨2, 3⟩] [⟨3, 9⟩, ⟨1, 5⟩, ⟨2, 3⟩] 3 9 true
    ⟨1, 5⟩ ⟨2, 3⟩ (by decide) (by decide) (by decide)).2.2.2

/-! ## Helper lemmas: row objects and projectors -/

theorem objGet_objSet_self (obj : RowObj) (k : String) (v : Option ℤ) :
    objGet (objSet obj k v) k = some v := by
  induction obj with
  | nil => simp [objSet, objGet]
  | cons kv rest ih =>
    by_cases h : kv.1 = k
    · simp [objSet, objGet, h]
    · simp [objSet, objGet, h, ih]

theorem objGet_objSet_ne (obj : RowObj) (k : String) (v : Option ℤ) (k' : String)
    (h : k' ≠ k) : objGet (objSet obj k v) k' = objGet obj k' := by
  induction obj with
  | nil => simp [objSet, objGet, Ne.symm h]
  | cons kv rest ih =>
    by_cases hk : kv.1 = k
    · simp [objSet, objGet, hk, Ne.symm h]
    · simp [objSet, objGet, hk, ih]

/-- A write makes exactly the written key present, leaving presence of
the other keys unchanged. -/
theorem isSome_objGet_objSet (obj : RowObj) (k : String) (v : Option ℤ) (k' : String) :
    (objGet (objSet obj k v) k').isSome ↔ k' = k ∨ (objGet obj k').isSome := by
  by_cases h : k' = k
  · subst h; simp [objGet_objSet_self]
  · simp [objGet_objSet_ne obj k v k' h, h]

theorem isSome_objGet_projectRowPlainAux (row : List ℤ) :
    ∀ (cols : List String) (i : Nat) (obj : RowObj) (k : String),
      (objGet (projectRowPlainAux row i cols obj) k).isSome ↔
        k ∈ cols ∨ (objGet obj k).isSome := by
  intro cols
  induction cols with
  | nil => intro i obj k; simp [projectRowPlainAux]
  | cons c cs ih =>
    intro i obj k
    simp only [projectRowPlainAux]
    rw [ih, isSome_objGet_objSet]
    simp only [List.mem_cons]
    tauto

/-- The keys of `getAdsorbateBreakdown`'s row objects are exactly the
original column names: no collapsing. -/
theorem isSome_objGet_projectRowPlain (cols : List String) (row : List ℤ) (k : String) :
    (objGet (projectRowPlain cols row) k).isSome ↔ k ∈ cols := by
  unfold projectRowPlain
  rw [isSome_objGet_projectRowPlainAux]
  simp [objGet]

theorem isSome_objGet_projectRowCleanAux (row : List ℤ) :
    ∀ (cols : List String) (i : Nat) (obj : RowObj) (k : String),
      (objGet (projectRowCleanAux row i cols obj) k).isSome ↔
        (k ∈ cols.map cleanCol ∨ k ∈ cols) ∨ (objGet obj k).isSome := by
  intro cols
  induction cols with
  | nil => intro i obj k; simp [projectRowCleanAux]
  | cons c cs ih =>
    intro i obj k
    simp only [projectRowCleanAux]
    rw [ih]
    by_cases hc : cleanCol c = c
    · rw [if_neg (by simp [hc]), isSome_objGet_objSet]
      simp only [List.map_cons, List.mem_cons, hc]
      tauto
    · rw [if_pos (by simp [hc]), isSome_objGet_objSet, isSome_objGet_objSet]
      simp only [List.map_cons, List.mem_cons]
      tauto

/-- The keys of `getDatasetMlipAdsorbateBreakdown`'s row objects are the
collapsed column names together with the original ones. -/
theorem isSome_objGet_projectRowClean (cols : List String) (row : List ℤ) (k : String) :
    (objGet (projectRowClean cols row) k).isSome ↔
      k ∈ cols.map cleanCol ∨ k ∈ cols := by
  unfold projectRowClean
  rw [isSome_objGet_projectRowCleanAux]
  simp [objGet]

/-- C6: the dataset×model row projector stores a collapsed column's
value under both the collapsed key and the original column name, and
every column's value is retrievable under its own name; the table with
columns ["E","E - E","F"] and row [1,1,2] projects to exactly
{E: 1, "E - E": 1, F: 2}. -/
theorem C6_collapsed_column_roundtrip :
    (∀ (cols : List String) (row : List ℤ) (c : String), c ∈ cols →
        (objGet (projectRowClean cols row) c).isSome ∧
        (objGet (projectRowClean cols row) (cleanCol c)).isSome) ∧
    getDatasetMlipAdsorbateBreakdown
        (some ⟨none, some [("D", [("M", ⟨some ["E", "E - E", "F"], some [[1, 1, 2]]⟩)])], none⟩)
        "D" "M" =
      some [[("E", some 1), ("E - E", some 1), ("F", some 2)]] := by
  refine ⟨fun cols row c hc => ⟨?_, ?_⟩, by decide⟩
  · rw [isSome_objGet_projectRowClean]
    exact Or.inr hc
  · rw [isSome_objGet_projectRowClean]
    exact Or.inl (List.mem_map_of_mem cleanCol hc)

/-- C6 witness: the general statement applied to a concrete column. -/
theorem C6_collapsed_column_roundtrip_witness :
    (objGet (projectRowClean ["E - E"] [7]) (cleanCol "E - E")).isSome :=
  (C6_collapsed_column_roundtrip.1 ["E - E"] [7] "E - E" (by decide)).2

/-- C7 counterexample: a present table whose `columns` and `data` fields
are both absent makes the projector return `some []` (an empty row
array), not `null`. -/
theorem C7_projector_null_cex :
    getDatasetMlipAdsorbateBreakdown
        (some ⟨none, some [("D", [("M", ⟨none, none⟩)])], none⟩) "D" "M" = some [] ∧
    getDatasetMlipAdsorbateBreakdown
        (some ⟨none, some [("D", [("M", ⟨none, none⟩)])], none⟩) "D" "M" ≠ none := by
  decide

/-- C7 (amended): the record normalizer returns `[]` when the document
or its `mlips` mapping is absent; the tabular row projector returns
`null` when the document, `excel_data`, the dataset's sheet map or the
MLIP's table is absent, but when the table is present with absent
`columns`/`data` those default to empty and the projector returns an
array (in particular `some []` when `data` is absent), not `null`; the
empty document yields `[]` and `null` respectively. -/
theorem C7_absent_input_handling :
    (∀ ds, transformDataForDataset none ds = []) ∧
    (∀ (d : Doc) ds, d.mlips = none → transformDataForDataset (some d) ds = []) ∧
    (∀ ds m, getDatasetMlipAdsorbateBreakdown none ds m = none) ∧
    (∀ (d : Doc) ds m, d.excel_data = none →
        getDatasetMlipAdsorbateBreakdown (some d) ds m = none) ∧
    (∀ (d : Doc) ed ds m, d.excel_data = some ed → List.lookup ds ed = none →
        getDatasetMlipAdsorbateBreakdown (some d) ds m = none) ∧
    (∀ (d : Doc) ed sheets ds m, d.excel_data = some ed →
        List.lookup ds ed = some sheets → List.lookup m sheets = none →
        getDatasetMlipAdsorbateBreakdown (some d) ds m = none) ∧
    (∀ (d : Doc) ed sheets t ds m, d.excel_data = some ed →
        List.lookup ds ed = some sheets → List.lookup m sheets = some t →
        t.data = none →
        getDatasetMlipAdsorbateBreakdown (some d) ds m = some []) ∧
    (∀ ds m, transformDataForDataset (some ⟨none, none, none⟩) ds = [] ∧
        getDatasetMlipAdsorbateBreakdown (some ⟨none, none, none⟩) ds m = none) := by
  refine ⟨fun ds => rfl, fun d ds h => ?_, fun ds m => rfl, fun d ds m h => ?_,
    fun d ed ds m h1 h2 => ?_, fun d ed sheets ds m h1 h2 h3 => ?_,
    fun d ed sheets t ds m h1 h2 h3 h4 => ?_, fun ds m => ⟨rfl, rfl⟩⟩
  · simp only [transformDataForDataset, h]
  · simp only [getDatasetMlipAdsorbateBreakdown, h]
  · simp only [getDatasetMlipAdsorbateBreakdown, h1, h2]
  · simp only [getDatasetMlipAdsorbateBreakdown, h1, h2, h3]
  · simp only [getDatasetMlipAdsorbateBreakdown, h1, h2, h3, h4, Option.getD_none,
      List.map_nil]

/-- C7 witness: the amended statement applied to a concrete table with
absent rows. -/
theorem C7_absent_input_handling_witness :
    getDatasetMlipAdsorbateBreakdown
        (some ⟨none, some [("D", [("M", ⟨some ["A"], none⟩)])], none⟩) "D" "M" = some [] :=
  C7_absent_input_handling.2.2.2.2.2.2.1
    ⟨none, some [("D", [("M", ⟨some ["A"], none⟩)])], none⟩
    [("D", [("M", ⟨some ["A"], none⟩)])] [("M", ⟨some ["A"], none⟩)]
    ⟨some ["A"], none⟩ "D" "M" rfl (by decide) (by decide) rfl

/-- C8 counterexample: the per-model adsorbate-breakdown projector keeps
the collapsed column name "E - E" as is — the projected row has no key
"E". -/
theorem C8_per_model_no_collapse_cex :
    getAdsorbateBreakdown
        (some ⟨none, none, some [("M", ⟨some ["E - E"], some [[1]]⟩)]⟩) "M" =
      some [[("E - E", some 1)]] ∧
    objGet [("E - E", (some 1 : Option ℤ))] "E" = none := by
  decide

/-- C8 (amended): only the dataset×model breakdown projector resolves
collapsed "A - A" column names (its row keys are the collapsed names
together with the originals); the per-model adsorbate-breakdown
projector keys its rows by the original column names only. -/
theorem C8_collapse_only_dataset_mlip :
    (∀ (cols : List String) (row : List ℤ) (k : String),
        (objGet (projectRowPlain cols row) k).isSome ↔ k ∈ cols) ∧
    (∀ (cols : List String) (row : List ℤ) (k : String),
        (objGet (projectRowClean cols row) k).isSome ↔
          k ∈ cols.map cleanCol ∨ k ∈ cols) ∧
    getAdsorbateBreakdown
        (some ⟨none, none, some [("M", ⟨some ["E - E"], some [[1]]⟩)]⟩) "M" =
      some [[("E - E", some 1)]] ∧
    getDatasetMlipAdsorbateBreakdown
        (some ⟨none, some [("D", [("M", ⟨some ["E - E"], some [[1]]⟩)])], none⟩) "D" "M" =
      some [[("E", some 1), ("E - E", some 1)]] :=
  ⟨isSome_objGet_projectRowPlain, isSome_objGet_projectRowClean, by decide, by decide⟩

/-- C8 witness: the key characterization at a concrete column list. -/
theorem C8_collapse_only_dataset_mlip_witness :
    (objGet (projectRowPlain ["E - E"] [1]) "E").isSome ↔
      "E" ∈ (["E - E"] : List String) :=
  C8_collapse_only_dataset_mlip.1 ["E - E"] [1] "E"

/-! ## Record normalizer (C9) -/

/-- The rational `0.5`, in reduced form (so that kernel evaluation never
needs `Nat.gcd`, which does not reduce). -/
def half : ℚ := Rat.mk' 1 2 (by decide) (Nat.coprime_one_left 2)

/-- The rational `0.01`, in reduced form. -/
def hundredth : ℚ := Rat.mk' 1 100 (by decide) (Nat.coprime_one_left 100)

theorem half_eq : half = 1 / 2 := by
  rw [half, Rat.mk'_eq_divInt, Rat.divInt_eq_div]
  norm_num

theorem hundredth_eq : hundredth = 1 / 100 := by
  rw [hundredth, Rat.mk'_eq_divInt, Rat.divInt_eq_div]
  norm_num

/-- The document of C9's scenario: one model "M" whose dataset "D"
metrics contain only `MAE_total (eV) = 0.5` and
`Time_per_step (s) = 0.01`. -/
def docC9 : Doc :=
  ⟨some [("M", ⟨some [("D", [("MAE_total (eV)", half), ("Time_per_step (s)", hundredth)])],
     none⟩)], none, none⟩

/-- C9: every record the normalizers produce sets the perpetually-absent
fields (adsorbateMigration, reproductionFailure, unphysicalRelaxation,
energyAnomaly, amdwt) to `null` while keeping them in the record shape;
each MLIP with metrics for the requested dataset yields the record
mapping the five populated fields from their exact source keys (the
average view reading the nested `mean`), absent keys resolving to
`null`; and the concrete scenario document yields exactly the stated
record. -/
theorem C9_record_field_mapping :
    (∀ (jd : Option Doc) (ds : String) (r : ModelRecord),
        r ∈ transformDataForDataset jd ds →
          r.adsorbateMigration = none ∧ r.reproductionFailure = none ∧
          r.unphysicalRelaxation = none ∧ r.energyAnomaly = none ∧ r.amdwt = none) ∧
    (∀ (jd : Option Doc) (r : ModelRecord),
        r ∈ transformDataForAverage jd →
          r.adsorbateMigration = none ∧ r.reproductionFailure = none ∧
          r.unphysicalRelaxation = none ∧ r.energyAnomaly = none ∧ r.amdwt = none) ∧
    (∀ (d : Doc) (mlips : List (String × MlipEntry)) (name : String) (e : MlipEntry)
        (ds : String) (metrics : List (String × ℚ)),
        d.mlips = some mlips → (name, e) ∈ mlips →
        e.datasets.bind (List.lookup ds) = some metrics →
        { model := name
          maeTotal := List.lookup "MAE_total (eV)" metrics
          maeNormal := List.lookup "MAE_normal (eV)" metrics
          normalRate := List.lookup "Normal rate (%)" metrics
          adsorbateMigration := none
          reproductionFailure := none
          unphysicalRelaxation := none
          energyAnomaly := none
          adwt := List.lookup "ADwT (%)" metrics
          amdwt := none
          timePerStep := List.lookup "Time_per_step (s)" metrics } ∈
          transformDataForDataset (some d) ds) ∧
    (∀ (d : Doc) (mlips : List (String × MlipEntry)) (name : String) (e : MlipEntry),
        d.mlips = some mlips → (name, e) ∈ mlips →
        { model := name
          maeTotal :=
            (List.lookup "MAE_total (eV)" (e.average_metrics.getD [])).bind AvgEntry.mean
          maeNormal :=
            (List.lookup "MAE_normal (eV)" (e.average_metrics.getD [])).bind AvgEntry.mean
          normalRate :=
            (List.lookup "Normal rate (%)" (e.average_metrics.getD [])).bind AvgEntry.mean
          adsorbateMigration := none
          reproductionFailure := none
          unphysicalRelaxation := none
          energyAnomaly := none
          adwt := (List.lookup "ADwT (%)" (e.average_metrics.getD [])).bind AvgEntry.mean
          amdwt := none
          timePerStep :=
            (List.lookup "Time_per_step (s)" (e.average_metrics.getD [])).bind AvgEntry.mean } ∈
          transformDataForAverage (some d)) ∧
    transformDataForDataset (some docC9) "D" =
      [{ model := "M", maeTotal := some half, maeNormal := none, normalRate := none,
         adsorbateMigration := none, reproductionFailure := none,
         unphysicalRelaxation := none, energyAnomaly := none, adwt := none,
         amdwt := none, timePerStep := some hundredth }] := by
  refine ⟨?_, ?_, ?_, ?_, by decide⟩
  · intro jd ds r hr
    cases jd with
    | none => simp [transformDataForDataset] at hr
    | some d =>
      cases hm : d.mlips with
      | none => simp [transformDataForDataset, hm] at hr
      | some mlips =>
        simp only [transformDataForDataset, hm] at hr
        rcases List.mem_filterMap.mp hr with ⟨entry, _, hf⟩
        cases hl : entry.2.datasets.bind (List.lookup ds) with
        | none => rw [hl] at hf; cases hf
        | some metrics =>
          rw [hl] at hf
          cases hf
          exact ⟨rfl, rfl, rfl, rfl, rfl⟩
  · intro jd r hr
    cases jd with
    | none => simp [transformDataForAverage] at hr
    | some d =>
      cases hm : d.mlips with
      | none => simp [transformDataForAverage, hm] at hr
      | some mlips =>
        simp only [transformDataForAverage, hm] at hr
        rcases List.mem_map.mp hr with ⟨entry, _, hf⟩
        cases hf
        exact ⟨rfl, rfl, rfl, rfl, rfl⟩
  · intro d mlips name e ds metrics hm hmem hl
    simp only [transformDataForDataset, hm]
    refine List.mem_filterMap.mpr ⟨(name, e), hmem, ?_⟩
    dsimp only
    rw [hl]
  · intro d mlips name e hm hmem
    simp only [transformDataForAverage, hm]
    exact List.mem_map.mpr ⟨(name, e), hmem, rfl⟩

/-- C9 witness: the always-null fields of the scenario record, through
the general statement. -/
theorem C9_record_field_mapping_witness :
    ({ model := "M", maeTotal := some half, maeNormal := none, normalRate := none,
       adsorbateMigration := none, reproductionFailure := none,
       unphysicalRelaxation := none, energyAnomaly := none, adwt := none,
       amdwt := none, timePerStep := some hundredth } : ModelRecord).amdwt = none :=
  (C9_record_field_mapping.1 (some docC9) "D" _ (by decide)).2.2.2.2

end CatBench
